import Mathlib

/-!
Verification of the tcshows build pipeline (build.js): CSV parsing,
Bandcamp page metadata extraction, the cached fetch pipeline, and the
show aggregation steps.  Every definition is a shallow embedding of the
corresponding JavaScript function; strings are modelled as `String` /
`List Char` and JavaScript `null`/absent values as `Option`.
-/

set_option maxRecDepth 4000

/-- Whitespace characters removed by the JavaScript `trim` method
(ASCII whitespace plus NBSP and the BOM, the forms that can occur here). -/
def isJsSpace (c : Char) : Bool :=
  c == ' ' || c == '\t' || c == '\n' || c == '\r' || c == '\x0b' || c == '\x0c' ||
  c == '\xa0'

/-- JavaScript `String.prototype.trim` on a character list. -/
def jsTrim (cs : List Char) : List Char :=
  ((cs.dropWhile isJsSpace).reverse.dropWhile isJsSpace).reverse

/-- Strip the literal `pat` from the front of `cs` (case sensitive); `none`
if `pat` is not a prefix. -/
def dropPref : List Char → List Char → Option (List Char)
  | [], rest => some rest
  | _ :: _, [] => none
  | p :: ps, c :: cs => if c == p then dropPref ps cs else none

/-- Strip the literal `pat` from the front of `cs`, ignoring ASCII case
(embeds the `i` flag of the JavaScript regexes). -/
def dropPrefCI : List Char → List Char → Option (List Char)
  | [], rest => some rest
  | _ :: _, [] => none
  | p :: ps, c :: cs => if c.toLower == p.toLower then dropPrefCI ps cs else none

/-- Substring test: JavaScript `String.prototype.includes`. -/
def containsSub : List Char → List Char → Bool
  | [], pat => pat.isEmpty
  | c :: rest, pat => (dropPref pat (c :: rest)).isSome || containsSub rest pat

/-- `includes` on `String`s. -/
def strIncludes (s pat : String) : Bool := containsSub s.data pat.data

/-- JavaScript `toLowerCase` (ASCII range), over the character list. -/
def jsLower (s : String) : String := (s.data.map Char.toLower).asString

/-- Leftmost-match regex search: try the pattern at every start position,
left to right, returning the first success (mirrors `String.prototype.match`
without the `g` flag for the deterministic patterns used in build.js). -/
def scanFor {α : Type} (tryAt : List Char → Option α) : List Char → Option α
  | [] => none
  | c :: rest =>
    match tryAt (c :: rest) with
    | some a => some a
    | none => scanFor tryAt rest

/-- Global regex search (`g` flag): collect all non-overlapping matches left
to right, resuming after each match.  `tryAt` returns the match value and the
remaining input after the match; fuel bounds the scan by the input length. -/
def scanAllF {α : Type} (tryAt : List Char → Option (α × List Char)) :
    Nat → List Char → List α
  | 0, _ => []
  | _ + 1, [] => []
  | fuel + 1, c :: rest =>
    match tryAt (c :: rest) with
    | some (a, after) => a :: scanAllF tryAt fuel after
    | none => scanAllF tryAt fuel rest

/-- Global literal replacement: JavaScript `str.replace(/pat/g, repl)` for a
literal nonempty pattern. -/
def replaceAllF (pat repl : List Char) : Nat → List Char → List Char
  | 0, cs => cs
  | _ + 1, [] => []
  | fuel + 1, c :: rest =>
    match dropPref pat (c :: rest) with
    | some after => repl ++ replaceAllF pat repl fuel after
    | none => c :: replaceAllF pat repl fuel rest

/-- JavaScript `str.replace(/<[^>]+>/g, '')`: delete every maximal
`<`…`>` group with a nonempty interior. -/
def stripTagsF : Nat → List Char → List Char
  | 0, cs => cs
  | _ + 1, [] => []
  | fuel + 1, c :: rest =>
    if c == '<' then
      let sp := rest.span (fun d => !(d == '>'))
      match sp.2 with
      | '>' :: after =>
        if sp.1.isEmpty then c :: stripTagsF fuel rest else stripTagsF fuel after
      | _ => c :: stripTagsF fuel rest
    else c :: stripTagsF fuel rest

/-- Tag-stripping at its natural fuel. -/
def stripTags (cs : List Char) : List Char := stripTagsF cs.length cs

/-!  CSV parser (`parseCSV` in build.js): a single left-to-right scan with an
`inQuotes` flag, a field accumulator and a row accumulator. -/

/-- The body of the `for` loop of `parseCSV`, one clause per branch of the
JavaScript conditional chain, plus the end-of-input flush. -/
def csvLoop : List Char → Bool → List Char → List (List Char) →
    List (List (List Char)) → List (List (List Char))
  | [], _, field, current, rows =>
    if !field.isEmpty || !current.isEmpty then rows ++ [current ++ [field]] else rows
  | '"' :: '"' :: rest, true, field, current, rows =>
    csvLoop rest true (field ++ ['"']) current rows
  | '"' :: rest, inQ, field, current, rows =>
    csvLoop rest (!inQ) field current rows
  | ',' :: rest, false, field, current, rows =>
    csvLoop rest false [] (current ++ [field]) rows
  | '\n' :: rest, false, field, current, rows =>
    csvLoop rest false [] [] (rows ++ [current ++ [field]])
  | '\r' :: rest, inQ, field, current, rows =>
    csvLoop rest inQ field current rows
  | c :: rest, inQ, field, current, rows =>
    csvLoop rest inQ (field ++ [c]) current rows

/-- `parseCSV` from build.js. -/
def parseCSV (csv : String) : List (List String) :=
  (csvLoop csv.data false [] [] []).map (fun row => row.map List.asString)

/-!  Embed identifier extraction (`extractEmbedInfo`). -/

/-- Attempt of the regex `lit[=:](\d+)` at the current position: the literal,
one of `=`/`:`, then a maximal nonempty digit run (the capture). -/
def tryIdAt (lit : List Char) (cs : List Char) : Option (List Char) :=
  match dropPref lit cs with
  | none => none
  | some rest =>
    match rest with
    | sep :: rest2 =>
      if sep == '=' || sep == ':' then
        let digits := rest2.takeWhile Char.isDigit
        if digits.isEmpty then none else some digits
      else none
    | [] => none

/-- Result of `extractEmbedInfo`: `{ type: 'album'|'track', id }`. -/
structure EmbedInfo where
  type : String
  id : String
deriving DecidableEq

/-- `extractEmbedInfo` from build.js: the album pattern is searched first,
then the track pattern. -/
def extractEmbedInfo (html : List Char) : Option EmbedInfo :=
  match scanFor (tryIdAt "album".data) html with
  | some digits => some ⟨"album", digits.asString⟩
  | none =>
    match scanFor (tryIdAt "track".data) html with
    | some digits => some ⟨"track", digits.asString⟩
    | none => none

/-- `buildEmbedHtml` from build.js: fixed iframe template around the
slash-joined parameter list. -/
def buildEmbedHtml (info : EmbedInfo) : String :=
  let baseUrl := "https://bandcamp.com/EmbeddedPlayer"
  let params := [info.type ++ "=" ++ info.id, "size=small", "bgcol=0a0a0a",
    "linkcol=888888", "transparent=true"]
  "<iframe style=\"border: 0; width: 100%; height: 42px;\" src=\"" ++
    baseUrl ++ "/" ++ String.intercalate "/" params ++ "\" seamless></iframe>"

/-!  Artist, thumbnail and title extraction. -/

/-- Attempt of `openLit[^>]*>([^<]+)closeLit` (case-insensitive) at the
current position, returning the capture. -/
def tryElemTextAt (openLit closeLit : List Char) (cs : List Char) :
    Option (List Char) :=
  match dropPrefCI openLit cs with
  | none => none
  | some rest =>
    let sp := rest.span (fun d => !(d == '>'))
    match sp.2 with
    | _ :: afterGt =>
      let inner := afterGt.span (fun d => !(d == '<'))
      if inner.1.isEmpty then none
      else (dropPrefCI closeLit inner.2).map (fun _ => inner.1)
    | [] => none

/-- Attempt of `lit([^"]+)"` (case-insensitive) at the current position,
returning the capture; used for the `<meta … content="…"` patterns. -/
def tryMetaContentAt (lit : List Char) (cs : List Char) : Option (List Char) :=
  match dropPrefCI lit cs with
  | none => none
  | some rest =>
    let q := rest.span (fun d => !(d == '"'))
    match q.2 with
    | _ :: _ => if q.1.isEmpty then none else some q.1
    | [] => none

/-- `extractArtist` from build.js: the `byArtist` span takes priority, then
the `og:site_name` meta tag (only the former is trimmed). -/
def extractArtist (html : List Char) : Option String :=
  match scanFor (tryElemTextAt "<span itemprop=\"byArtist\"".data "</span>".data) html with
  | some inner => some (jsTrim inner).asString
  | none =>
    match scanFor (tryMetaContentAt "<meta property=\"og:site_name\" content=\"".data) html with
    | some content => some content.asString
    | none => none

/-- `extractThumbnail` from build.js: the `og:image` meta tag. -/
def extractThumbnail (html : List Char) : Option String :=
  (scanFor (tryMetaContentAt "<meta property=\"og:image\" content=\"".data) html).map
    List.asString

/-- `extractAlbumTitle` from build.js: the `trackTitle` h2 (trimmed) takes
priority, then the `og:title` meta tag (untrimmed). -/
def extractAlbumTitle (html : List Char) : Option String :=
  match scanFor (tryElemTextAt "<h2 class=\"trackTitle\"".data "</h2>".data) html with
  | some inner => some (jsTrim inner).asString
  | none =>
    match scanFor (tryMetaContentAt "<meta property=\"og:title\" content=\"".data) html with
    | some content => some content.asString
    | none => none

/-!  Latest-release discovery (`extractLatestRelease`). -/

/-- Attempt of `href="(lit[^"]+)"` (case-sensitive) at the current position,
returning the capture (which includes `lit`). -/
def tryHrefAt (lit : List Char) (cs : List Char) : Option (List Char) :=
  match dropPref "href=\"".data cs with
  | none => none
  | some rest =>
    match dropPref lit rest with
    | none => none
    | some rest2 =>
      let q := rest2.span (fun d => !(d == '"'))
      match q.2 with
      | _ :: _ => if q.1.isEmpty then none else some (lit ++ q.1)
      | [] => none

/-- `baseUrl.replace(/\/$/, '')`: strip one trailing slash. -/
def stripTrailingSlash (s : String) : String :=
  match s.data.getLast? with
  | some '/' => s.data.dropLast.asString
  | _ => s

/-- `extractLatestRelease` from build.js: first `/album/` link, then first
`/track/` link, concatenated onto the slash-stripped base URL. -/
def extractLatestRelease (html : List Char) (baseUrl : String) : Option String :=
  match scanFor (tryHrefAt "/album/".data) html with
  | some path => some (stripTrailingSlash baseUrl ++ path.asString)
  | none =>
    match scanFor (tryHrefAt "/track/".data) html with
    | some path => some (stripTrailingSlash baseUrl ++ path.asString)
    | none => none

/-!  A JSON value model and parser, embedding the `JSON.parse` call used by
the second tag strategy of `extractGenresAndLocation`. -/

/-- JSON values; numbers keep their lexeme (only strings are consumed by the
tag extraction). -/
inductive JVal where
  | jnull : JVal
  | jbool : Bool → JVal
  | jnum : String → JVal
  | jstr : String → JVal
  | jarr : List JVal → JVal
  | jobj : List (String × JVal) → JVal

/-- JSON insignificant whitespace. -/
def skipWs (cs : List Char) : List Char :=
  cs.dropWhile (fun c => c == ' ' || c == '\t' || c == '\n' || c == '\r')

/-- Hex digit value. -/
def hexVal (c : Char) : Option Nat :=
  if c.isDigit then some (c.toNat - '0'.toNat)
  else if 'a' ≤ c ∧ c ≤ 'f' then some (c.toNat - 'a'.toNat + 10)
  else if 'A' ≤ c ∧ c ≤ 'F' then some (c.toNat - 'A'.toNat + 10)
  else none

/-- JSON string body parser (the opening quote already consumed): returns the
decoded contents and the input after the closing quote. -/
def parseJStr : List Char → Option (List Char × List Char)
  | [] => none
  | '"' :: rest => some ([], rest)
  | '\\' :: e :: rest =>
    if e == '"' ∨ e == '\\' ∨ e == '/' then
      (parseJStr rest).map (fun p => (e :: p.1, p.2))
    else if e == 'b' then (parseJStr rest).map (fun p => ('\x08' :: p.1, p.2))
    else if e == 'f' then (parseJStr rest).map (fun p => ('\x0c' :: p.1, p.2))
    else if e == 'n' then (parseJStr rest).map (fun p => ('\n' :: p.1, p.2))
    else if e == 'r' then (parseJStr rest).map (fun p => ('\r' :: p.1, p.2))
    else if e == 't' then (parseJStr rest).map (fun p => ('\t' :: p.1, p.2))
    else if e == 'u' then
      match rest with
      | h1 :: h2 :: h3 :: h4 :: rest2 =>
        match hexVal h1, hexVal h2, hexVal h3, hexVal h4 with
        | some a, some b, some c, some d =>
          (parseJStr rest2).map
            (fun p => (Char.ofNat (a * 4096 + b * 256 + c * 16 + d) :: p.1, p.2))
        | _, _, _, _ => none
      | _ => none
    else none
  | c :: rest =>
    if c.toNat < 32 then none
    else (parseJStr rest).map (fun p => (c :: p.1, p.2))

/-- JSON number lexer: `-?(0|[1-9][0-9]*)(\.[0-9]+)?([eE][+-]?[0-9]+)?`. -/
def parseJNum (cs : List Char) : Option (List Char × List Char) :=
  let p := match cs with
    | '-' :: r => ((['-'] : List Char), r)
    | _ => ([], cs)
  let ip : Option (List Char × List Char) :=
    match p.2 with
    | '0' :: r2 => some (['0'], r2)
    | c :: r2 =>
      if c.isDigit then
        some (c :: r2.takeWhile Char.isDigit, r2.dropWhile Char.isDigit)
      else none
    | [] => none
  match ip with
  | none => none
  | some (intPart, r2) =>
    let fp : Option (List Char × List Char) :=
      match r2 with
      | '.' :: r3 =>
        let ds := r3.takeWhile Char.isDigit
        if ds.isEmpty then none else some ('.' :: ds, r3.dropWhile Char.isDigit)
      | _ => some ([], r2)
    match fp with
    | none => none
    | some (fracPart, r3) =>
      let ep : Option (List Char × List Char) :=
        match r3 with
        | e :: r4 =>
          if e == 'e' || e == 'E' then
            let sg := match r4 with
              | s :: r5 => if s == '+' || s == '-' then ([s], r5) else (([] : List Char), r4)
              | [] => ([], r4)
            let ds := sg.2.takeWhile Char.isDigit
            if ds.isEmpty then none
            else some (e :: sg.1 ++ ds, sg.2.dropWhile Char.isDigit)
          else some ([], r3)
        | [] => some ([], r3)
      ep.map (fun q => (p.1 ++ intPart ++ fracPart ++ q.1, q.2))

mutual

/-- JSON value parser (fuel-bounded recursion). -/
def parseJVal : Nat → List Char → Option (JVal × List Char)
  | 0, _ => none
  | fuel + 1, cs =>
    match skipWs cs with
    | [] => none
    | c :: rest =>
      if c == '"' then
        (parseJStr rest).map (fun q => (JVal.jstr q.1.asString, q.2))
      else if c == '\x7b' then
        match skipWs rest with
        | '\x7d' :: r2 => some (JVal.jobj [], r2)
        | _ => (parseJMembers fuel rest).map (fun q => (JVal.jobj q.1, q.2))
      else if c == '[' then
        match skipWs rest with
        | ']' :: r2 => some (JVal.jarr [], r2)
        | _ => (parseJElems fuel rest).map (fun q => (JVal.jarr q.1, q.2))
      else
        match dropPref "true".data (c :: rest) with
        | some r2 => some (JVal.jbool true, r2)
        | none =>
          match dropPref "false".data (c :: rest) with
          | some r2 => some (JVal.jbool false, r2)
          | none =>
            match dropPref "null".data (c :: rest) with
            | some r2 => some (JVal.jnull, r2)
            | none => (parseJNum (c :: rest)).map (fun q => (JVal.jnum q.1.asString, q.2))

/-- JSON object members parser (after the opening brace). -/
def parseJMembers : Nat → List Char → Option (List (String × JVal) × List Char)
  | 0, _ => none
  | fuel + 1, cs =>
    match skipWs cs with
    | '"' :: rest =>
      match parseJStr rest with
      | none => none
      | some (key, r2) =>
        match skipWs r2 with
        | ':' :: r3 =>
          match parseJVal fuel r3 with
          | none => none
          | some (v, r4) =>
            match skipWs r4 with
            | ',' :: r5 =>
              (parseJMembers fuel r5).map (fun q => ((key.asString, v) :: q.1, q.2))
            | '\x7d' :: r5 => some ([(key.asString, v)], r5)
            | _ => none
        | _ => none
    | _ => none

/-- JSON array elements parser (after the opening bracket). -/
def parseJElems : Nat → List Char → Option (List JVal × List Char)
  | 0, _ => none
  | fuel + 1, cs =>
    match parseJVal fuel cs with
    | none => none
    | some (v, r2) =>
      match skipWs r2 with
      | ',' :: r3 => (parseJElems fuel r3).map (fun q => (v :: q.1, q.2))
      | ']' :: r3 => some ([v], r3)
      | _ => none

end

/-- `JSON.parse`: parse one value and require only whitespace after it. -/
def jsonParse (s : String) : Option JVal :=
  match parseJVal (2 * s.length + 4) s.data with
  | some (v, rest) => if (skipWs rest).isEmpty then some v else none
  | none => none

/-- JavaScript property lookup on a parsed JSON value (later duplicate keys
overwrite earlier ones, as in `JSON.parse`). -/
def jGet (v : JVal) (key : String) : Option JVal :=
  match v with
  | JVal.jobj fields => (fields.reverse.find? (fun q => q.1 == key)).map (fun q => q.2)
  | _ => none

/-!  Tag/location extraction (`extractGenresAndLocation`). -/

/-- Find the first (case-insensitive) occurrence of `pat`; return the text
before it and the input after it (the lazy `([\s\S]*?)pat` step). -/
def splitAtSubCI (pat : List Char) : List Char → Option (List Char × List Char)
  | [] => if pat.isEmpty then some ([], []) else none
  | c :: rest =>
    match dropPrefCI pat (c :: rest) with
    | some after => some ([], after)
    | none => (splitAtSubCI pat rest).map (fun q => (c :: q.1, q.2))

/-- Attempt of `class="tralbum-tags"[^>]*>([\s\S]*?)</div>` (case-insensitive)
at the current position, returning the capture. -/
def tryTagBlockAt (cs : List Char) : Option (List Char) :=
  match dropPrefCI "class=\"tralbum-tags\"".data cs with
  | none => none
  | some rest =>
    let sp := rest.span (fun d => !(d == '>'))
    match sp.2 with
    | _ :: afterGt => (splitAtSubCI "</div>".data afterGt).map (fun q => q.1)
    | [] => none

/-- Attempt of `openLit[^>]*>([^<]+)</a>` (case-insensitive) at the current
position, returning the full match text and the input after it (for the
global anchor scans). -/
def tryAnchorAt (openLit : List Char) (cs : List Char) :
    Option (List Char × List Char) :=
  match dropPrefCI openLit cs with
  | none => none
  | some rest =>
    let sp := rest.span (fun d => !(d == '>'))
    match sp.2 with
    | _ :: afterGt =>
      let inner := afterGt.span (fun d => !(d == '<'))
      if inner.1.isEmpty then none
      else
        match dropPrefCI "</a>".data inner.2 with
        | some after => some (cs.take (cs.length - after.length), after)
        | none => none
    | [] => none

/-- All matches of the anchor pattern starting with `openLit`, left to right
(the `gi` flags). -/
def anchorMatches (openLit : List Char) (cs : List Char) : List (List Char) :=
  scanAllF (tryAnchorAt openLit) cs.length cs

/-- Per-anchor text: `link.replace(/<[^>]+>/g, '').trim()`. -/
def anchorText (link : List Char) : String := (jsTrim (stripTags link)).asString

/-- Strategy 1 candidates: anchor texts inside the first `tralbum-tags`
block. -/
def pattern1Tags (html : List Char) : List String :=
  match scanFor tryTagBlockAt html with
  | none => []
  | some block => (anchorMatches "<a".data block).map anchorText

/-- The raw value of the first `data-tralbum="([^"]+)"` attribute
(case-sensitive). -/
def dataTralbumRaw (html : List Char) : Option (List Char) :=
  scanFor (fun cs =>
    match dropPref "data-tralbum=\"".data cs with
    | none => none
    | some rest =>
      let q := rest.span (fun d => !(d == '"'))
      match q.2 with
      | _ :: _ => if q.1.isEmpty then none else some q.1
      | [] => none) html

/-- The two entity replacements applied before `JSON.parse`:
`&quot;` → `"` then `&amp;` → `&`. -/
def decodeEntities (cs : List Char) : List Char :=
  let s1 := replaceAllF "&quot;".data ['"'] cs.length cs
  replaceAllF "&amp;".data ['&'] s1.length s1

/-- The `data.tags.forEach` body: push each element's string `name`; a `null`
element aborts the loop (the thrown property access is caught outside, keeping
the names already pushed). -/
def tagNamesLoop : List JVal → List String
  | [] => []
  | JVal.jnull :: _ => []
  | t :: rest =>
    match jGet t "name" with
    | some (JVal.jstr s) => s :: tagNamesLoop rest
    | _ => tagNamesLoop rest

/-- Tag names of the parsed `data-tralbum` value: only an array-valued `tags`
property contributes (any other shape either is falsy or throws before a
name is pushed). -/
def tralbumTagNames (v : JVal) : List String :=
  match jGet v "tags" with
  | some (JVal.jarr elems) => tagNamesLoop elems
  | _ => []

/-- Strategy 2 candidates: tag names from the decoded and parsed
`data-tralbum` JSON blob. -/
def pattern2Tags (html : List Char) : List String :=
  match dataTralbumRaw html with
  | none => []
  | some raw =>
    match jsonParse (decodeEntities raw).asString with
    | some data => tralbumTagNames data
    | none => []

/-- Strategy 3 candidates: texts of standalone `<a class="tag" …>` anchors
anywhere in the page. -/
def pattern3Tags (html : List Char) : List String :=
  (anchorMatches "<a class=\"tag\"".data html).map anchorText

/-- One `allTags` push: append `t` when it is nonempty and not yet present
(the `text && !allTags.includes(text)` guard shared by all three
strategies). -/
def pushTag (acc : List String) (t : String) : List String :=
  if t ≠ "" ∧ t ∉ acc then acc ++ [t] else acc

/-- The merged, deduplicated `allTags` list of
`extractGenresAndLocation`. -/
def allTagsOf (html : List Char) : List String :=
  (pattern1Tags html ++ pattern2Tags html ++ pattern3Tags html).foldl pushTag []

/-- `extractGenresAndLocation` from build.js: genres are
`allTags.slice(0, -1).slice(0, 4)`, location is the last tag or null. -/
def extractGenresAndLocation (html : List Char) : List String × Option String :=
  let allTags := allTagsOf html
  (allTags.dropLast.take 4, allTags.getLast?)

/-!  The per-page metadata record and `fetchBandcampData`. -/

/-- The metadata record produced per Bandcamp URL.  For `artist` and
`thumbnailUrl` the outer `Option` distinguishes an absent key (`none`) from a
present key whose value may itself be null. -/
structure BCData where
  embedHtml : Option String
  trackTitle : Option String
  albumTitle : Option String
  artist : Option (Option String)
  thumbnailUrl : Option (Option String)
  genres : List String
  location : Option String
deriving DecidableEq

/-- The pure tail of `fetchBandcampData` once the final page markup is in
hand: run every extractor, and build the reduced record when no embed info
was found (that record carries no `artist` or `thumbnailUrl` key). -/
def extractPageData (html : List Char) : BCData :=
  let gl := extractGenresAndLocation html
  let embedInfo := extractEmbedInfo html
  let albumTitle := extractAlbumTitle html
  let artist := extractArtist html
  let thumbnailUrl := extractThumbnail html
  match embedInfo with
  | none =>
    { embedHtml := none, trackTitle := none, albumTitle := albumTitle,
      artist := none, thumbnailUrl := none, genres := gl.1, location := gl.2 }
  | some info =>
    { embedHtml := some (buildEmbedHtml info), trackTitle := albumTitle,
      albumTitle := albumTitle, artist := some artist,
      thumbnailUrl := some thumbnailUrl, genres := gl.1, location := gl.2 }

/-- `fetchBandcampData` from build.js, parameterised by the network as a pure
oracle `fetchHtml` (`none` models a thrown fetch error, which the
surrounding `try`/`catch` converts to a null result). -/
def fetchBandcampData (fetchHtml : String → Option String) (bandcampUrl : String) :
    Option BCData :=
  if bandcampUrl == "" || !strIncludes bandcampUrl "bandcamp.com" then none
  else
    match fetchHtml bandcampUrl with
    | none => none
    | some pageHtml =>
      if !strIncludes bandcampUrl "/album/" && !strIncludes bandcampUrl "/track/" then
        match extractLatestRelease pageHtml.data bandcampUrl with
        | some latest =>
          match fetchHtml latest with
          | none => none
          | some html2 => some (extractPageData html2.data)
        | none => some (extractPageData pageHtml.data)
      else some (extractPageData pageHtml.data)

/-!  The Bandcamp cache and the per-show media loop of `build`. -/

/-- The in-memory Bandcamp cache: lower-cased URL → record.  Insertion
prepends; lookup takes the first binding (keys are inserted at most once). -/
abbrev Cache := List (String × BCData)

/-- Cache lookup. -/
def cGet (c : Cache) (k : String) : Option BCData :=
  (c.find? (fun q => q.1 == k)).map (fun q => q.2)

/-- Cache insertion. -/
def cPut (c : Cache) (k : String) (d : BCData) : Cache := (k, d) :: c

/-- Result of processing one show's URL list: records pushed, updated cache,
number of `fetchBandcampData` invocations (network fetch attempts). -/
structure UrlRun where
  recs : List BCData
  cache : Cache
  fetches : Nat

/-- The `for (const url of urls)` loop of `build`: cache hit pushes the
cached record with no fetch; otherwise fetch, and push/cache only a non-null
result. -/
def processUrls (fetchHtml : String → Option String) :
    Cache → List String → UrlRun
  | c, [] => ⟨[], c, 0⟩
  | c, url :: rest =>
    match cGet c (jsLower url) with
    | some d =>
      let r := processUrls fetchHtml c rest
      ⟨d :: r.recs, r.cache, r.fetches⟩
    | none =>
      match fetchBandcampData fetchHtml url with
      | some d =>
        let r := processUrls fetchHtml (cPut c (jsLower url) d) rest
        ⟨d :: r.recs, r.cache, r.fetches + 1⟩
      | none =>
        let r := processUrls fetchHtml c rest
        ⟨r.recs, r.cache, r.fetches + 1⟩

/-- Delimiter set of the URL splitter `split(/[,\n]+/)`. -/
def isUrlDelim (c : Char) : Bool := c == ',' || c == '\n'

/-- `split(/[,\n]+/)`: a run of delimiters makes one split. -/
def splitDelimRunsF : Nat → List Char → List (List Char)
  | 0, cs => [cs]
  | fuel + 1, cs =>
    let fld := cs.takeWhile (fun c => !isUrlDelim c)
    let rest := cs.dropWhile (fun c => !isUrlDelim c)
    match rest with
    | [] => [fld]
    | _ => fld :: splitDelimRunsF fuel (rest.dropWhile isUrlDelim)

/-- The URL list of one show's raw Bandcamp field: split, trim, and keep
nonempty entries mentioning the supported host. -/
def splitUrls (s : String) : List String :=
  ((splitDelimRunsF (s.length + 1) s.data).map (fun f => (jsTrim f).asString)).filter
    (fun u => !(u == "") && strIncludes u "bandcamp.com")

/-!  Show aggregation. -/

/-- A venue row from the venues sheet. -/
structure Venue where
  name : String
  address : String
  website : String
  neighborhood : String
  capacity : String
deriving DecidableEq

/-- The venues lookup object: rows with a nonempty name, later duplicate
names overwriting earlier ones. -/
def buildVenues (rows : List (List String)) : List (String × Venue) :=
  rows.foldl (fun acc row =>
    let name := row.getD 0 ""
    if name ≠ "" then
      acc ++ [(name,
        { name := name, address := row.getD 1 "", website := row.getD 2 "",
          neighborhood := row.getD 3 "", capacity := row.getD 4 "" })]
    else acc) []

/-- `venues[name]`: the last binding wins. -/
def venueLookup (venues : List (String × Venue)) (name : String) : Option Venue :=
  (venues.reverse.find? (fun q => q.1 == name)).map (fun q => q.2)

/-- A show's venue: the looked-up venue or the synthetic `{ name }` stub. -/
inductive VenueRef where
  | full : Venue → VenueRef
  | stub : String → VenueRef
deriving DecidableEq

/-- A show row after the `showsRaw` mapping (the raw Bandcamp field still
attached). -/
structure ShowRec where
  date : String
  venue : VenueRef
  title : String
  time : String
  cost : String
  age : String
  linkUrl : String
  imageUrl : String
  details : String
  multiples : String
  bandcampUrl : String
deriving DecidableEq

/-- The required-fields filter `row[0] && row[1] && row[2]`. -/
def rowRequired (row : List String) : Bool :=
  !(row.getD 0 "" == "") && !(row.getD 1 "" == "") && !(row.getD 2 "" == "")

/-- The `map` body of `showsRaw`: positional destructuring with `|| ''`
defaults and venue resolution. -/
def mkShow (venues : List (String × Venue)) (row : List String) : ShowRec :=
  let venueName := row.getD 1 ""
  { date := row.getD 0 ""
    venue := match venueLookup venues venueName with
      | some v => VenueRef.full v
      | none => VenueRef.stub venueName
    title := row.getD 2 ""
    time := row.getD 3 ""
    cost := row.getD 4 ""
    age := row.getD 5 ""
    linkUrl := row.getD 6 ""
    imageUrl := row.getD 7 ""
    details := row.getD 8 ""
    multiples := row.getD 9 ""
    bandcampUrl := row.getD 12 "" }

/-- `showsRaw` from `build`: filter on the three required fields, then map. -/
def showsRawOf (venues : List (String × Venue)) (rows : List (List String)) :
    List ShowRec :=
  (rows.filter rowRequired).map (mkShow venues)

/-- A show as pushed to the output (`bandcampUrl` deleted; `bandcamp` present
only when at least one record was produced). -/
structure ShowOut where
  date : String
  venue : VenueRef
  title : String
  time : String
  cost : String
  age : String
  linkUrl : String
  imageUrl : String
  details : String
  multiples : String
  bandcamp : Option (List BCData)
deriving DecidableEq

/-- Result of the outer show loop. -/
structure MediaRun where
  shows : List ShowOut
  cache : Cache
  fetches : Nat

/-- The `for (const show of showsRaw)` loop of `build`: per show, process its
URL list (only when the raw field is nonempty), attach `bandcamp` when
nonempty, and thread the cache. -/
def attachMedia (fetchHtml : String → Option String) :
    Cache → List ShowRec → MediaRun
  | c, [] => ⟨[], c, 0⟩
  | c, s :: rest =>
    let r : UrlRun :=
      if s.bandcampUrl ≠ "" then processUrls fetchHtml c (splitUrls s.bandcampUrl)
      else ⟨[], c, 0⟩
    let out : ShowOut :=
      { date := s.date, venue := s.venue, title := s.title, time := s.time,
        cost := s.cost, age := s.age, linkUrl := s.linkUrl, imageUrl := s.imageUrl,
        details := s.details, multiples := s.multiples,
        bandcamp := if r.recs ≠ [] then some r.recs else none }
    let rr := attachMedia fetchHtml r.cache rest
    ⟨out :: rr.shows, rr.cache, r.fetches + rr.fetches⟩

/-- ISO `YYYY-MM-DD` date reading, embedding the `new Date(s)` comparisons of
the final sort for the calendar-date strings the sheet uses. -/
def parseISODate (s : String) : Option (Nat × Nat × Nat) :=
  match s.data with
  | [y1, y2, y3, y4, '-', m1, m2, '-', d1, d2] =>
    if y1.isDigit && y2.isDigit && y3.isDigit && y4.isDigit && m1.isDigit &&
        m2.isDigit && d1.isDigit && d2.isDigit then
      some (((y1.toNat - 48) * 1000 + (y2.toNat - 48) * 100 + (y3.toNat - 48) * 10 +
        (y4.toNat - 48)),
        ((m1.toNat - 48) * 10 + (m2.toNat - 48)),
        ((d1.toNat - 48) * 10 + (d2.toNat - 48)))
    else none
  | _ => none

/-- Sort key: monotone in the parsed calendar date (the sign of the
`new Date(a) - new Date(b)` comparator is determined by it). -/
def dateKey (s : String) : Int :=
  match parseISODate s with
  | some (y, m, d) => (y * 10000 + m * 100 + d : Int)
  | none => 0

/-- The comparator `new Date(a.date) - new Date(b.date) ≤ 0`. -/
def showLe (a b : ShowOut) : Bool := dateKey a.date ≤ dateKey b.date

/-- `shows.sort(...)`: JavaScript `Array.prototype.sort` is stable, embedded
as a stable merge sort on the date key. -/
def sortShows (shows : List ShowOut) : List ShowOut := shows.mergeSort showLe

/-!  Specification-side definitions, written from the claims' wording, to be
compared with the embedded code. -/

/-- First-seen deduplication as the spec words it: keep the first occurrence
of each element, dropping later duplicates. -/
def dedupFirst : List String → List String
  | [] => []
  | t :: ts => t :: dedupFirst (ts.filter (fun u => !(u == t)))
termination_by l => l.length
decreasing_by
  exact Nat.lt_succ_of_le (List.length_filter_le _ ts)

/-- Helper relating the interleaved `pushTag` folds to `dedupFirst`: the new
tags contributed by `l` given the already-seen accumulator. -/
def dedupNew (seen : List String) : List String → List String
  | [] => []
  | t :: ts =>
    if t ≠ "" ∧ t ∉ seen then t :: dedupNew (seen ++ [t]) ts else dedupNew seen ts

/-- Find the first occurrence of `pat` (case-sensitive); return the text
before it and the input after it. -/
def splitAtSub (pat : List Char) : List Char → Option (List Char × List Char)
  | [] => if pat.isEmpty then some ([], []) else none
  | c :: rest =>
    match dropPref pat (c :: rest) with
    | some after => some ([], after)
    | none => (splitAtSub pat rest).map (fun q => (c :: q.1, q.2))

/-- Modelled from the spec: the origin of a URL (scheme and host, the part
before the first path slash), used by claim C3's phrase "resolved against the
artist URL's origin". -/
def urlOrigin (s : String) : String :=
  match splitAtSub "://".data s.data with
  | some (scheme, rest) =>
    (scheme ++ "://".data ++ rest.takeWhile (fun c => !(c == '/'))).asString
  | none => s

/-- Specification view of the URL loop for claim C7: the per-URL optional
outcome (cache hit, fetched record, or nothing) in input order, with the same
cache threading as the code. -/
def resolveAll (fetchHtml : String → Option String) :
    Cache → List String → List (Option BCData) × Cache
  | c, [] => ([], c)
  | c, url :: rest =>
    match cGet c (jsLower url) with
    | some d =>
      let r := resolveAll fetchHtml c rest
      (some d :: r.1, r.2)
    | none =>
      match fetchBandcampData fetchHtml url with
      | some d =>
        let r := resolveAll fetchHtml (cPut c (jsLower url) d) rest
        (some d :: r.1, r.2)
      | none =>
        let r := resolveAll fetchHtml c rest
        (none :: r.1, r.2)

/-- Cache extension order: `cacheExt c2 c1` when every binding visible in
`c1` is visible unchanged in `c2`. -/
def cacheExt (c2 c1 : Cache) : Prop :=
  ∀ k d, cGet c1 k = some d → cGet c2 k = some d

/-!  Concrete inputs used by the per-claim witnesses. -/

/-- Example page markup for claim C1: strategy 1 yields `punk`, `noise`,
strategy 2 yields `lo-fi` and a duplicate `punk`, strategy 3 yields `weird`,
`Minneapolis`. -/
def ex1Html : String :=
  "<div class=\"tralbum-tags\" data-x=\"1\"><a href=\"/t/punk\">punk</a> " ++
  "<a href=\"/t/noise\">noise</a></div>" ++
  "<p data-tralbum=\"\x7b&quot;tags&quot;:[\x7b&quot;name&quot;:&quot;lo-fi&quot;\x7d," ++
  "\x7b&quot;name&quot;:&quot;punk&quot;\x7d]\x7d\"></p>" ++
  "<a class=\"tag\" href=\"/x\">weird</a><a class=\"tag\" href=\"/y\">Minneapolis</a>"

/-- Example page markup for claim C10: an artist byline and an `og:image`
meta tag are present, but no album or track identifier pattern. -/
def ex10Html : String :=
  "<span itemprop=\"byArtist\"> The Band </span>" ++
  "<meta property=\"og:image\" content=\"https://img.example/a.jpg\">" ++
  "<meta property=\"og:title\" content=\"Some Release\">"

/-- Fetch oracle for the C6/C7 witnesses: one album page exists, everything
else errors. -/
def exFetch : String → Option String :=
  fun u => if u == "https://a.bandcamp.com/album/x" then some "<p>album=7</p>" else none

/-- A show row for the C6 witness whose raw field holds the one good URL. -/
def exShow : ShowRec :=
  { date := "2025-11-01", venue := VenueRef.stub "V", title := "T", time := "",
    cost := "", age := "", linkUrl := "", imageUrl := "", details := "",
    multiples := "", bandcampUrl := "https://a.bandcamp.com/album/x" }

/-- A show row with a URL whose fetch always fails (for the C6
counterexample). -/
def exShowBad : ShowRec :=
  { date := "2025-11-01", venue := VenueRef.stub "V", title := "T", time := "",
    cost := "", age := "", linkUrl := "", imageUrl := "", details := "",
    multiples := "", bandcampUrl := "https://b.bandcamp.com/album/y" }

/-- Shows for the claim C9 example: dates 2025-11-01, 2025-10-15, 2025-11-01,
the two equal-dated shows distinguishable by title. -/
def exShowA : ShowOut :=
  { date := "2025-11-01", venue := VenueRef.stub "V", title := "first",
    time := "", cost := "", age := "", linkUrl := "", imageUrl := "",
    details := "", multiples := "", bandcamp := none }

/-- Second C9 example show (the earlier date). -/
def exShowB : ShowOut :=
  { date := "2025-10-15", venue := VenueRef.stub "V", title := "second",
    time := "", cost := "", age := "", linkUrl := "", imageUrl := "",
    details := "", multiples := "", bandcamp := none }

/-- Third C9 example show (equal date to the first). -/
def exShowC : ShowOut :=
  { date := "2025-11-01", venue := VenueRef.stub "V", title := "third",
    time := "", cost := "", age := "", linkUrl := "", imageUrl := "",
    details := "", multiples := "", bandcamp := none }

/-!  Claim theorems. -/

/-- Claim C2: parsing the single quoted CSV field `"a,b\nc""d"` (embedded
comma, embedded newline, embedded doubled quote) yields exactly one row with
exactly one field whose value is `a,b\nc"d`. -/
theorem C2_csv_roundtrip :
    parseCSV "\"a,b\nc\"\"d\"" = [["a,b\nc\"d"]] := by decide

/-- Claim C4 counterexample: a field whose raw text is exactly the two
characters `""` parses to the empty string, not to a single literal quote
(in `a,"",b` the middle field comes out empty). -/
theorem C4_counterexample :
    parseCSV "a,\"\",b" = [["a", "", "b"]] ∧ ¬ (("" : String) = "\"") := by
  constructor
  · decide
  · decide

/-- Claim C4 (amended): a field whose raw text is exactly `""` yields the
empty string (a lone such field yields no row at all, by the final-flush
condition), while a doubled quote inside a quoted field yields one literal
quote character. -/
theorem C4_doubled_quote :
    parseCSV "a,\"\",b" = [["a", "", "b"]] ∧ parseCSV "\"\"" = [] ∧
    parseCSV "\"a\"\"b\"" = [["a\"b"]] := by
  refine ⟨by decide, by decide, by decide⟩

/-- Claim C3 counterexample: for an artist URL that has a path component,
the code concatenates onto the full URL (slash-stripped), not onto the URL's
origin as the claim states. -/
theorem C3_counterexample :
    extractLatestRelease "<a href=\"/album/x\">z</a>".data
        "https://artist.bandcamp.com/music" =
      some "https://artist.bandcamp.com/music/album/x" ∧
    urlOrigin "https://artist.bandcamp.com/music" = "https://artist.bandcamp.com" ∧
    ¬ (("https://artist.bandcamp.com/music/album/x" : String) =
        urlOrigin "https://artist.bandcamp.com/music" ++ "/album/x") := by
  refine ⟨by decide, by decide, by decide⟩

/-- Claim C3 (amended): latest-release discovery returns the first
album-link path if one matches, otherwise the first track-link path, else
null; a found path is concatenated onto the artist URL itself with one
trailing slash stripped (not onto the URL's origin). -/
theorem C3_latest_release (html : List Char) (base : String) :
    (∀ p, scanFor (tryHrefAt "/album/".data) html = some p →
      extractLatestRelease html base =
        some (stripTrailingSlash base ++ p.asString)) ∧
    (scanFor (tryHrefAt "/album/".data) html = none →
      ∀ p, scanFor (tryHrefAt "/track/".data) html = some p →
      extractLatestRelease html base =
        some (stripTrailingSlash base ++ p.asString)) ∧
    (scanFor (tryHrefAt "/album/".data) html = none →
      scanFor (tryHrefAt "/track/".data) html = none →
      extractLatestRelease html base = none) := by
  refine ⟨?_, ?_, ?_⟩
  · intro p hp
    simp [extractLatestRelease, hp]
  · intro ha p hp
    simp [extractLatestRelease, ha, hp]
  · intro ha ht
    simp [extractLatestRelease, ha, ht]

/-- Witness for C3: the album link wins and is concatenated onto the
slash-stripped base. -/
theorem C3_witness :
    scanFor (tryHrefAt "/album/".data) "<a href=\"/album/x\">z</a>".data =
      some "/album/x".data ∧
    extractLatestRelease "<a href=\"/album/x\">z</a>".data
        "https://a.bandcamp.com/" = some "https://a.bandcamp.com/album/x" :=
  ⟨by decide, (C3_latest_release _ _).1 "/album/x".data (by decide)⟩

/-- Claim C5: embed extraction returns the album variant whenever the album
pattern matches anywhere (regardless of where the track pattern occurs),
falls back to the track variant, else null; on markup carrying both patterns
with the track one first, the album id is still chosen. -/
theorem C5_embed_priority (html : List Char) :
    (∀ d, scanFor (tryIdAt "album".data) html = some d →
      extractEmbedInfo html = some ⟨"album", d.asString⟩) ∧
    (scanFor (tryIdAt "album".data) html = none →
      ∀ d, scanFor (tryIdAt "track".data) html = some d →
      extractEmbedInfo html = some ⟨"track", d.asString⟩) ∧
    (scanFor (tryIdAt "album".data) html = none →
      scanFor (tryIdAt "track".data) html = none →
      extractEmbedInfo html = none) ∧
    extractEmbedInfo "track=11 album=22".data = some ⟨"album", "22"⟩ := by
  refine ⟨?_, ?_, ?_, by decide⟩
  · intro d hd
    simp [extractEmbedInfo, hd]
  · intro ha d hd
    simp [extractEmbedInfo, ha, hd]
  · intro ha ht
    simp [extractEmbedInfo, ha, ht]

/-- Witness for C5 at markup containing both patterns, track first. -/
theorem C5_witness :
    scanFor (tryIdAt "album".data) "track=11 album=22".data = some "22".data ∧
    extractEmbedInfo "track=11 album=22".data = some ⟨"album", "22"⟩ :=
  ⟨by decide, (C5_embed_priority "track=11 album=22".data).1 "22".data (by decide)⟩

/-- Claim C10: when embed extraction fails on a fetched page, the produced
record has null `embedHtml` and `trackTitle`, carries `albumTitle`, `genres`
and `location`, and has no `artist` or `thumbnailUrl` key at all — even when
the byline and meta-image patterns match. -/
theorem C10_no_embed_fields (html : List Char)
    (h : extractEmbedInfo html = none) :
    extractPageData html =
      { embedHtml := none, trackTitle := none,
        albumTitle := extractAlbumTitle html, artist := none,
        thumbnailUrl := none, genres := (extractGenresAndLocation html).1,
        location := (extractGenresAndLocation html).2 } := by
  simp [extractPageData, h]

/-- Witness for C10: a page with a byline and an `og:image` but no embed
identifier still yields a record with no artist and no thumbnail. -/
theorem C10_witness :
    extractEmbedInfo ex10Html.data = none ∧
    extractPageData ex10Html.data =
      { embedHtml := none, trackTitle := none,
        albumTitle := some "Some Release", artist := none,
        thumbnailUrl := none, genres := [], location := none } :=
  ⟨by decide, by rw [C10_no_embed_fields ex10Html.data (by decide)]; decide⟩

/-- The show comparator is transitive. -/
theorem showLe_trans (a b c : ShowOut) (hab : showLe a b) (hbc : showLe b c) :
    showLe a c := by
  simp only [showLe, decide_eq_true_eq] at hab hbc ⊢
  exact le_trans hab hbc

/-- The show comparator is total. -/
theorem showLe_total (a b : ShowOut) : showLe a b || showLe b a := by
  simp only [showLe, Bool.or_eq_true, decide_eq_true_eq]
  exact Int.le_total _ _

/-- Claim C8: rows missing one of the date, venue-name or title fields
contribute no show; rows with all three contribute exactly their mapped
show; every produced show comes from a full required row. -/
theorem C8_partial_row_rejection (venues : List (String × Venue))
    (rows pre post : List (List String)) (row : List String) :
    (rowRequired row ↔
      (row.getD 0 "" ≠ "" ∧ row.getD 1 "" ≠ "" ∧ row.getD 2 "" ≠ "")) ∧
    (¬ rowRequired row →
      showsRawOf venues (pre ++ row :: post) = showsRawOf venues (pre ++ post)) ∧
    (rowRequired row →
      showsRawOf venues (pre ++ row :: post) =
        showsRawOf venues pre ++ mkShow venues row :: showsRawOf venues post) ∧
    (∀ s ∈ showsRawOf venues rows, ∃ r, r ∈ rows ∧ rowRequired r ∧
      s = mkShow venues r) := by
  refine ⟨?_, ?_, ?_, ?_⟩
  · simp [rowRequired, and_assoc]
  · intro h
    simp only [showsRawOf, List.filter_append, List.filter_cons]
    rw [if_neg h]
  · intro h
    simp only [showsRawOf, List.filter_append, List.filter_cons]
    rw [if_pos h]
    simp
  · intro s hs
    simp only [showsRawOf, List.mem_map, List.mem_filter] at hs
    obtain ⟨r, ⟨hr, hreq⟩, hmk⟩ := hs
    exact ⟨r, hr, hreq, hmk.symm⟩

/-- Witness for C8: a row missing its title is dropped while its full
sibling in the same batch is kept. -/
theorem C8_witness :
    ¬ rowRequired ["2025-01-01", "V"] ∧
    showsRawOf [] [["2025-01-01", "V"], ["2025-01-02", "W", "T2"]] =
      showsRawOf [] [["2025-01-02", "W", "T2"]] := by
  refine ⟨by decide, ?_⟩
  exact (C8_partial_row_rejection [] [] [] [["2025-01-02", "W", "T2"]]
    ["2025-01-01", "V"]).2.1 (by decide)

/-- Claim C9: the final show ordering is ascending in the parsed calendar
date, is a permutation of the input, and is stable (equal dates keep their
input order); the three-show example of the claim sorts as stated. -/
theorem C9_sort_stable (shows : List ShowOut)
    (hdates : ∀ s ∈ shows, (parseISODate s.date).isSome) :
    (sortShows shows).Pairwise (fun a b => showLe a b) ∧
    List.Perm (sortShows shows) shows ∧
    (∀ a b : ShowOut, List.Sublist [a, b] shows → dateKey a.date ≤ dateKey b.date →
      List.Sublist [a, b] (sortShows shows)) ∧
    sortShows [exShowA, exShowB, exShowC] = [exShowB, exShowA, exShowC] := by
  refine ⟨?_, ?_, ?_, by
    simp +decide [sortShows, List.mergeSort, List.splitInTwo, List.merge,
      exShowA, exShowB, exShowC]⟩
  · exact List.sorted_mergeSort showLe_trans showLe_total shows
  · exact List.mergeSort_perm shows showLe
  · intro a b hsub hle
    refine List.pair_sublist_mergeSort showLe_trans showLe_total ?_ hsub
    simp only [showLe, decide_eq_true_eq]
    exact hle

/-- Witness for C9 at the claim's three dated shows. -/
theorem C9_witness :
    (∀ s ∈ [exShowA, exShowB, exShowC], (parseISODate s.date).isSome) ∧
    sortShows [exShowA, exShowB, exShowC] = [exShowB, exShowA, exShowC] :=
  ⟨by decide, (C9_sort_stable [exShowA, exShowB, exShowC] (by decide)).2.2.2⟩

/-- The interleaved `pushTag` fold factors through `dedupNew`. -/
theorem foldl_pushTag (l : List String) : ∀ acc : List String,
    l.foldl pushTag acc = acc ++ dedupNew acc l := by
  induction l with
  | nil => intro acc; simp [dedupNew]
  | cons t ts ih =>
    intro acc
    by_cases h : t ≠ "" ∧ t ∉ acc
    · rw [List.foldl_cons, dedupNew, if_pos h]
      show List.foldl pushTag (pushTag acc t) ts = _
      rw [pushTag, if_pos h, ih]
      simp
    · rw [List.foldl_cons, dedupNew, if_neg h]
      show List.foldl pushTag (pushTag acc t) ts = _
      rw [pushTag, if_neg h, ih]

/-- Everything produced by `dedupNew` is nonempty and new. -/
theorem mem_dedupNew (a : String) : ∀ (l seen : List String),
    a ∈ dedupNew seen l → a ∉ seen ∧ a ≠ "" := by
  intro l
  induction l with
  | nil => intro seen h; simp [dedupNew] at h
  | cons t ts ih =>
    intro seen h
    by_cases hc : t ≠ "" ∧ t ∉ seen
    · rw [dedupNew, if_pos hc] at h
      rcases List.mem_cons.mp h with rfl | h2
      · exact ⟨hc.2, hc.1⟩
      · have h3 := ih (seen ++ [t]) h2
        exact ⟨fun hm => h3.1 (List.mem_append_left _ hm), h3.2⟩
    · rw [dedupNew, if_neg hc] at h
      exact ih seen h

/-- `dedupNew` produces no duplicates. -/
theorem nodup_dedupNew : ∀ (l seen : List String), (dedupNew seen l).Nodup := by
  intro l
  induction l with
  | nil => intro seen; simp [dedupNew]
  | cons t ts ih =>
    intro seen
    by_cases hc : t ≠ "" ∧ t ∉ seen
    · rw [dedupNew, if_pos hc]
      refine List.nodup_cons.mpr ⟨?_, ih _⟩
      intro hmem
      exact (mem_dedupNew t ts (seen ++ [t]) hmem).1
        (List.mem_append_right _ (List.mem_singleton.mpr rfl))
    · rw [dedupNew, if_neg hc]
      exact ih seen

/-- `dedupNew` is first-seen deduplication of the new nonempty elements. -/
theorem dedupNew_eq_dedupFirst : ∀ (l seen : List String),
    dedupNew seen l =
      dedupFirst (l.filter (fun t => !(t == "") && !(seen.contains t))) := by
  intro l
  induction l with
  | nil => intro seen; simp [dedupNew, dedupFirst]
  | cons t ts ih =>
    intro seen
    by_cases hc : t ≠ "" ∧ t ∉ seen
    · have hf : List.filter (fun u => !(u == "") && !(seen.contains u)) (t :: ts) =
          t :: List.filter (fun u => !(u == "") && !(seen.contains u)) ts := by
        simp [List.filter_cons]
        tauto
      rw [dedupNew, if_pos hc, hf, dedupFirst, ih]
      congr 1
      rw [List.filter_filter]
      congr 1
      apply List.filter_congr
      intro u hu2
      by_cases hu : u = t
      · subst hu
        simp
      · by_cases he : u ∈ seen <;> by_cases hz : u = "" <;>
          simp [List.contains, List.elem_eq_mem, List.mem_append, hu, he, hz]
    · have hf : List.filter (fun u => !(u == "") && !(seen.contains u)) (t :: ts) =
          List.filter (fun u => !(u == "") && !(seen.contains u)) ts := by
        simp [List.filter_cons]
        tauto
      rw [dedupNew, if_neg hc, hf]
      exact ih seen

/-- The merged tag list is first-seen deduplication of the concatenated
strategy outputs, restricted to nonempty texts. -/
theorem allTagsOf_eq (html : List Char) :
    allTagsOf html =
      dedupFirst ((pattern1Tags html ++ pattern2Tags html ++ pattern3Tags html).filter
        (fun t => !(t == ""))) := by
  rw [allTagsOf, foldl_pushTag, dedupNew_eq_dedupFirst]
  simp

/-- Claim C1: the tag extraction merges the three strategies with exact-text
first-seen deduplication; the final merged element is the location and the
preceding ones, capped at 4, are the genres; an empty merged list gives empty
genres and a null location; the five-tag example splits as the claim
states. -/
theorem C1_tags_dedup_split (html : List Char) :
    (extractGenresAndLocation html =
      ((dedupFirst ((pattern1Tags html ++ pattern2Tags html ++
          pattern3Tags html).filter (fun t => !(t == "")))).dropLast.take 4,
       (dedupFirst ((pattern1Tags html ++ pattern2Tags html ++
          pattern3Tags html).filter (fun t => !(t == "")))).getLast?)) ∧
    (allTagsOf html).Nodup ∧
    (allTagsOf html = [] → extractGenresAndLocation html = ([], none)) ∧
    extractGenresAndLocation ex1Html.data =
      (["punk", "noise", "lo-fi", "weird"], some "Minneapolis") := by
  refine ⟨?_, ?_, ?_, by decide⟩
  · show (let allTags := allTagsOf html
      (allTags.dropLast.take 4, allTags.getLast?)) = _
    rw [allTagsOf_eq]
  · rw [allTagsOf, foldl_pushTag]
    simpa using nodup_dedupNew (pattern1Tags html ++ pattern2Tags html ++
      pattern3Tags html) []
  · intro h
    show (let allTags := allTagsOf html
      (allTags.dropLast.take 4, allTags.getLast?)) = _
    rw [h]
    rfl

/-- Witness for C1: the five-tag example page, and an empty page giving the
empty split. -/
theorem C1_witness :
    extractGenresAndLocation ex1Html.data =
      (["punk", "noise", "lo-fi", "weird"], some "Minneapolis") ∧
    allTagsOf "".data = [] ∧
    extractGenresAndLocation "".data = ([], none) :=
  ⟨(C1_tags_dedup_split ex1Html.data).2.2.2, by decide,
    (C1_tags_dedup_split "".data).2.2.1 (by decide)⟩

/-- The URL loop over an appended list runs the first part, then the second
from the resulting cache. -/
theorem processUrls_append (f : String → Option String) :
    ∀ (xs ys : List String) (c : Cache),
      processUrls f c (xs ++ ys) =
        ⟨(processUrls f c xs).recs ++
            (processUrls f (processUrls f c xs).cache ys).recs,
          (processUrls f (processUrls f c xs).cache ys).cache,
          (processUrls f c xs).fetches +
            (processUrls f (processUrls f c xs).cache ys).fetches⟩ := by
  intro xs
  induction xs with
  | nil => intro ys c; simp [processUrls]
  | cons u rest ih =>
    intro ys c
    rcases hc : cGet c (jsLower u) with _ | d
    · rcases hf : fetchBandcampData f u with _ | d
      · simp [processUrls, hc, hf, ih]
        omega
      · simp [processUrls, hc, hf, ih]
        omega
    · simp [processUrls, hc, ih]

/-- The emitted records are the order-preserving compaction of the per-URL
optional outcomes. -/
theorem processUrls_recs_eq (f : String → Option String) :
    ∀ (urls : List String) (c : Cache),
      (processUrls f c urls).recs = ((resolveAll f c urls).1).reduceOption := by
  intro urls
  induction urls with
  | nil => intro c; simp [processUrls, resolveAll, List.reduceOption_nil]
  | cons u rest ih =>
    intro c
    rcases hc : cGet c (jsLower u) with _ | d
    · rcases hf : fetchBandcampData f u with _ | d
      · simp [processUrls, resolveAll, hc, hf, ih, List.reduceOption_cons_of_none]
      · simp [processUrls, resolveAll, hc, hf, ih, List.reduceOption_cons_of_some]
    · simp [processUrls, resolveAll, hc, ih, List.reduceOption_cons_of_some]

/-- Claim C7: a URL whose fetch fails contributes no record and leaves the
records and cache of the remaining URLs unchanged (only the fetch count
grows), and the emitted sequence is the input-ordered compaction of per-URL
outcomes with failures omitted (never null placeholders). -/
theorem C7_error_isolation (f : String → Option String) (c : Cache)
    (pre post : List String) (u : String)
    (h1 : cGet (processUrls f c pre).cache (jsLower u) = none)
    (h2 : fetchBandcampData f u = none) :
    ((processUrls f c (pre ++ u :: post)).recs =
        (processUrls f c (pre ++ post)).recs ∧
      (processUrls f c (pre ++ u :: post)).cache =
        (processUrls f c (pre ++ post)).cache ∧
      (processUrls f c (pre ++ u :: post)).fetches =
        (processUrls f c (pre ++ post)).fetches + 1) ∧
    ∀ urls, (processUrls f c urls).recs = ((resolveAll f c urls).1).reduceOption := by
  constructor
  · have e1 := processUrls_append f pre (u :: post) c
    have e2 := processUrls_append f pre post c
    have estep : processUrls f (processUrls f c pre).cache (u :: post) =
        ⟨(processUrls f (processUrls f c pre).cache post).recs,
          (processUrls f (processUrls f c pre).cache post).cache,
          (processUrls f (processUrls f c pre).cache post).fetches + 1⟩ := by
      simp [processUrls, h1, h2]
    rw [e1, e2, estep]
    refine ⟨by simp, by simp, ?_⟩
    simp
    omega
  · intro urls
    exact processUrls_recs_eq f urls c

/-- Witness for C7: a failing URL in second position leaves the single good
record intact. -/
theorem C7_witness :
    cGet (processUrls exFetch [] ["https://a.bandcamp.com/album/x"]).cache
        (jsLower "https://b.bandcamp.com/album/y") = none ∧
    fetchBandcampData exFetch "https://b.bandcamp.com/album/y" = none ∧
    (processUrls exFetch []
        ["https://a.bandcamp.com/album/x", "https://b.bandcamp.com/album/y"]).recs =
      (processUrls exFetch [] ["https://a.bandcamp.com/album/x"]).recs :=
  ⟨by decide, by decide,
    (C7_error_isolation exFetch [] ["https://a.bandcamp.com/album/x"] []
      "https://b.bandcamp.com/album/y" (by decide) (by decide)).1.1⟩

/-- Cache extension is reflexive. -/
theorem cacheExt_refl (c : Cache) : cacheExt c c := fun _ _ h => h

/-- Cache extension is transitive. -/
theorem cacheExt_trans {c3 c2 c1 : Cache} (h32 : cacheExt c3 c2)
    (h21 : cacheExt c2 c1) : cacheExt c3 c1 :=
  fun k d h => h32 k d (h21 k d h)

/-- Present keys survive cache extension. -/
theorem cacheExt_ne_none {c2 c1 : Cache} (h : cacheExt c2 c1) (k : String)
    (hk : cGet c1 k ≠ none) : cGet c2 k ≠ none := by
  rcases hg : cGet c1 k with _ | d
  · exact absurd hg hk
  · rw [h k d hg]
    simp

/-- Inserting a key reads back its value. -/
theorem cGet_cPut_self (c : Cache) (k : String) (d : BCData) :
    cGet (cPut c k d) k = some d := by
  simp [cGet, cPut]

/-- Inserting a fresh key preserves every existing binding. -/
theorem cPut_ext (c : Cache) (k : String) (d : BCData) (h : cGet c k = none) :
    cacheExt (cPut c k d) c := by
  intro k2 d2 h2
  by_cases hk : k = k2
  · subst hk
    rw [h] at h2
    cases h2
  · simpa [cGet, cPut, hk] using h2

/-- The URL loop only grows the cache. -/
theorem processUrls_cache_ext (f : String → Option String) :
    ∀ (urls : List String) (c : Cache),
      cacheExt (processUrls f c urls).cache c := by
  intro urls
  induction urls with
  | nil => intro c; exact cacheExt_refl c
  | cons u rest ih =>
    intro c
    rcases hc : cGet c (jsLower u) with _ | d
    · rcases hf : fetchBandcampData f u with _ | d
      · simpa [processUrls, hc, hf] using ih c
      · have h1 := ih (cPut c (jsLower u) d)
        have h2 := cPut_ext c (jsLower u) d hc
        simpa [processUrls, hc, hf] using cacheExt_trans h1 h2
    · simpa [processUrls, hc] using ih c

/-- The show loop only grows the cache. -/
theorem attachMedia_cache_ext (f : String → Option String) :
    ∀ (shows : List ShowRec) (c : Cache),
      cacheExt (attachMedia f c shows).cache c := by
  intro shows
  induction shows with
  | nil => intro c; exact cacheExt_refl c
  | cons s rest ih =>
    intro c
    by_cases hb : s.bandcampUrl ≠ ""
    · have h1 := ih (processUrls f c (splitUrls s.bandcampUrl)).cache
      have h2 := processUrls_cache_ext f (splitUrls s.bandcampUrl) c
      simpa [attachMedia, hb] using cacheExt_trans h1 h2
    · simpa [attachMedia, hb] using ih c

/-- Rerunning the URL loop against any cache extending the first run's final
cache, when every URL fetches successfully or was already cached: the rerun
emits the same records, performs no fetches, and leaves the cache
untouched. -/
theorem processUrls_rerun (f : String → Option String) :
    ∀ (urls : List String) (c1 c2 : Cache),
      (∀ u ∈ urls, fetchBandcampData f u ≠ none ∨ cGet c1 (jsLower u) ≠ none) →
      cacheExt c2 (processUrls f c1 urls).cache →
      (processUrls f c2 urls).recs = (processUrls f c1 urls).recs ∧
      (processUrls f c2 urls).fetches = 0 ∧
      (processUrls f c2 urls).cache = c2 := by
  intro urls
  induction urls with
  | nil => intro c1 c2 _ _; exact ⟨rfl, rfl, rfl⟩
  | cons u rest ih =>
    intro c1 c2 hall hext
    have htail : ∀ v ∈ rest, fetchBandcampData f v ≠ none ∨
        cGet c1 (jsLower v) ≠ none :=
      fun v hv => hall v (List.mem_cons_of_mem u hv)
    rcases hc1 : cGet c1 (jsLower u) with _ | d
    · rcases hf : fetchBandcampData f u with _ | d
      · rcases hall u (List.mem_cons_self u rest) with h | h
        · exact absurd hf h
        · exact absurd hc1 h
      · have hext1 : cacheExt c2
            (processUrls f (cPut c1 (jsLower u) d) rest).cache := by
          have he : (processUrls f c1 (u :: rest)).cache =
              (processUrls f (cPut c1 (jsLower u) d) rest).cache := by
            simp [processUrls, hc1, hf]
          rw [he] at hext
          exact hext
        have hc2 : cGet c2 (jsLower u) = some d :=
          hext1 (jsLower u) d
            (processUrls_cache_ext f rest (cPut c1 (jsLower u) d) (jsLower u) d
              (cGet_cPut_self c1 (jsLower u) d))
        have htail2 : ∀ v ∈ rest, fetchBandcampData f v ≠ none ∨
            cGet (cPut c1 (jsLower u) d) (jsLower v) ≠ none := by
          intro v hv
          rcases htail v hv with h | h
          · exact Or.inl h
          · exact Or.inr (cacheExt_ne_none (cPut_ext c1 (jsLower u) d hc1) _ h)
        have ihres := ih (cPut c1 (jsLower u) d) c2 htail2 hext1
        refine ⟨?_, ?_, ?_⟩
        · simp [processUrls, hc1, hf, hc2, ihres.1]
        · simp [processUrls, hc2, ihres.2.1]
        · simp [processUrls, hc2, ihres.2.2]
    · have hext1 : cacheExt c2 (processUrls f c1 rest).cache := by
        have he : (processUrls f c1 (u :: rest)).cache =
            (processUrls f c1 rest).cache := by
          simp [processUrls, hc1]
        rw [he] at hext
        exact hext
      have hc2 : cGet c2 (jsLower u) = some d :=
        hext1 (jsLower u) d (processUrls_cache_ext f rest c1 (jsLower u) d hc1)
      have ihres := ih c1 c2 htail hext1
      refine ⟨?_, ?_, ?_⟩
      · simp [processUrls, hc1, hc2, ihres.1]
      · simp [processUrls, hc2, ihres.2.1]
      · simp [processUrls, hc2, ihres.2.2]

/-- Rerunning the show loop against any cache extending the first run's
final cache, when every URL fetches successfully or was already cached. -/
theorem attachMedia_rerun (f : String → Option String) :
    ∀ (shows : List ShowRec) (c1 c2 : Cache),
      (∀ s ∈ shows, ∀ u ∈ splitUrls s.bandcampUrl,
        fetchBandcampData f u ≠ none ∨ cGet c1 (jsLower u) ≠ none) →
      cacheExt c2 (attachMedia f c1 shows).cache →
      (attachMedia f c2 shows).shows = (attachMedia f c1 shows).shows ∧
      (attachMedia f c2 shows).fetches = 0 ∧
      (attachMedia f c2 shows).cache = c2 := by
  intro shows
  induction shows with
  | nil => intro c1 c2 _ _; exact ⟨rfl, rfl, rfl⟩
  | cons s rest ih =>
    intro c1 c2 hall hext
    by_cases hb : s.bandcampUrl = ""
    · have hrn : (attachMedia f c1 (s :: rest)).cache =
          (attachMedia f c1 rest).cache := by
        simp [attachMedia, hb]
      have hext2 : cacheExt c2 (attachMedia f c1 rest).cache := by
        rw [hrn] at hext
        exact hext
      have ihres := ih c1 c2
        (fun s' hs' => hall s' (List.mem_cons_of_mem _ hs')) hext2
      refine ⟨?_, ?_, ?_⟩
      · simp [attachMedia, hb, ihres.1]
      · simp [attachMedia, hb, ihres.2.1]
      · simp [attachMedia, hb, ihres.2.2]
    · have hrn : (attachMedia f c1 (s :: rest)).cache =
          (attachMedia f (processUrls f c1 (splitUrls s.bandcampUrl)).cache
            rest).cache := by
        simp [attachMedia, hb]
      have hext2 : cacheExt c2
          (attachMedia f (processUrls f c1 (splitUrls s.bandcampUrl)).cache
            rest).cache := by
        rw [hrn] at hext
        exact hext
      have hext1 : cacheExt c2
          (processUrls f c1 (splitUrls s.bandcampUrl)).cache :=
        cacheExt_trans hext2
          (attachMedia_cache_ext f rest
            (processUrls f c1 (splitUrls s.bandcampUrl)).cache)
      have hu := processUrls_rerun f (splitUrls s.bandcampUrl) c1 c2
        (hall s (List.mem_cons_self s rest)) hext1
      have htail : ∀ s' ∈ rest, ∀ u ∈ splitUrls s'.bandcampUrl,
          fetchBandcampData f u ≠ none ∨
          cGet (processUrls f c1 (splitUrls s.bandcampUrl)).cache (jsLower u) ≠
            none := by
        intro s' hs' u hu'
        rcases hall s' (List.mem_cons_of_mem _ hs') u hu' with h | h
        · exact Or.inl h
        · exact Or.inr
            (cacheExt_ne_none
              (processUrls_cache_ext f (splitUrls s.bandcampUrl) c1) _ h)
      have ihres := ih (processUrls f c1 (splitUrls s.bandcampUrl)).cache c2
        htail hext2
      refine ⟨?_, ?_, ?_⟩
      · simp [attachMedia, hb, hu.1, hu.2.2, ihres.1]
      · simp [attachMedia, hb, hu.2.1, hu.2.2, ihres.2.1]
      · simp [attachMedia, hb, hu.2.2, ihres.2.2]

/-- Claim C6 counterexample: with a URL whose fetch always errors, the first
run caches nothing for it, so a second run with the produced cache still
performs a network fetch — "zero additional fetches" fails as an
unconditional statement. -/
theorem C6_counterexample :
    (attachMedia exFetch (attachMedia exFetch [] [exShowBad]).cache
      [exShowBad]).fetches ≠ 0 := by decide

/-- Claim C6 (amended): a cache hit emits exactly the cached record with no
fetch; and provided every URL of the run is already cached or fetches
successfully, a second run over the cache produced by the first emits
identical records, performs zero fetches, and leaves the cache unchanged. -/
theorem C6_cache_idempotent :
    (∀ (f : String → Option String) (c : Cache) (url : String)
        (rest : List String) (d : BCData), cGet c (jsLower url) = some d →
      processUrls f c (url :: rest) =
        ⟨d :: (processUrls f c rest).recs, (processUrls f c rest).cache,
          (processUrls f c rest).fetches⟩) ∧
    ∀ (f : String → Option String) (c : Cache) (shows : List ShowRec),
      (∀ s ∈ shows, ∀ u ∈ splitUrls s.bandcampUrl,
        fetchBandcampData f u ≠ none ∨ cGet c (jsLower u) ≠ none) →
      (attachMedia f (attachMedia f c shows).cache shows).shows =
          (attachMedia f c shows).shows ∧
      (attachMedia f (attachMedia f c shows).cache shows).fetches = 0 ∧
      (attachMedia f (attachMedia f c shows).cache shows).cache =
          (attachMedia f c shows).cache := by
  constructor
  · intro f c url rest d h
    simp [processUrls, h]
  · intro f c shows hall
    exact attachMedia_rerun f shows c (attachMedia f c shows).cache hall
      (cacheExt_refl _)

/-- Witness for C6: the one-show, one-good-URL run; the second run fetches
nothing and reproduces the records, and a direct cache hit emits the cached
record. -/
theorem C6_witness :
    (∀ s ∈ [exShow], ∀ u ∈ splitUrls s.bandcampUrl,
      fetchBandcampData exFetch u ≠ none ∨ cGet ([] : Cache) (jsLower u) ≠ none) ∧
    (attachMedia exFetch (attachMedia exFetch [] [exShow]).cache [exShow]).fetches
      = 0 ∧
    processUrls exFetch (cPut [] "u" (extractPageData [])) ["U"] =
      ⟨[extractPageData []], cPut [] "u" (extractPageData []), 0⟩ :=
  ⟨by decide,
    ((C6_cache_idempotent.2 exFetch [] [exShow]) (by decide)).2.1,
    C6_cache_idempotent.1 exFetch (cPut [] "u" (extractPageData [])) "U" []
      (extractPageData []) (by decide)⟩
